import Mathlib

/-
Verification of the enrollment service (services/enrollment/api.py) against its
design specification.  The relational state (tables `sections`, `enrollments`,
`waitlist`) is embedded as lists of rows in insertion order, and each HTTP
handler of api.py is embedded as a function from the database state to a new
state together with either a value or a raised error.
-/

namespace CoursesApi

/-- Enrollment status values stored in the `enrollments.status` column:
the SQL string literals `Enrolled`, `Waitlisted` and `Dropped`. -/
inductive EnrollmentStatus
  | Enrolled
  | Waitlisted
  | Dropped
deriving DecidableEq, Repr

/-- Caller roles carried in the JWT claims of a request. -/
inductive Role
  | Student
  | Instructor
  | Registrar
deriving DecidableEq, Repr

/-- A row of the `sections` table (the columns the enrollment API reads). -/
structure Section where
  id : Int
  capacity : Int
  waitlist_capacity : Int
  freeze : Bool
  deleted : Bool
  instructor_id : Int
deriving DecidableEq, Repr

/-- A row of the `enrollments` table.  The `date` column is never read by any
handler and is omitted. -/
structure Enrollment where
  user_id : Int
  section_id : Int
  status : EnrollmentStatus
  grade : Option String
deriving DecidableEq, Repr

/-- A row of the `waitlist` table.  The `date` column is never read by any
handler and is omitted. -/
structure Waitlist where
  user_id : Int
  section_id : Int
  position : Int
deriving DecidableEq, Repr

/-- The relational state of the enrollment database: the three tables, with
rows kept in insertion (rowid) order. -/
structure DB where
  sections : List Section
  enrollments : List Enrollment
  waitlist : List Waitlist
deriving DecidableEq, Repr

/-- Outcomes a handler can raise instead of returning: a FastAPI
`HTTPException(status_code, detail)`, the Python `IndexError` raised by
indexing `[0]` into an empty list, and the Python `TypeError` raised by a
membership test on an unresolved `Depends` default argument. -/
inductive Err
  | httpError (status_code : Int) (detail : String)
  | indexError
  | typeError
deriving DecidableEq, Repr

deriving instance DecidableEq for Except

/-- `SELECT COUNT(*) FROM enrollments WHERE section_id = :section` — note the
query counts rows of every status. -/
def countEnrollments (db : DB) (sec : Int) : Int :=
  ((db.enrollments.filter (fun e => e.section_id == sec)).length : Int)

/-- `SELECT COUNT(*) FROM waitlist WHERE section_id = :section`. -/
def countWaitlistBySection (db : DB) (sec : Int) : Int :=
  ((db.waitlist.filter (fun w => w.section_id == sec)).length : Int)

/-- `SELECT COUNT(*) FROM waitlist WHERE user_id = :user` — across all sections. -/
def countWaitlistByUser (db : DB) (user : Int) : Int :=
  ((db.waitlist.filter (fun w => w.user_id == user)).length : Int)

/-- Modelled from the spec: `database.list_enrollments` lives in
services/enrollment/database.py, which is not under src/.  Per the relational
shape of the spec (Enrollment records keyed by `(user_id, section_id)`) it
returns the enrollment rows matching the given keys, in table order. -/
def list_enrollments (db : DB) (keys : List (Int × Int)) : List Enrollment :=
  db.enrollments.filter (fun e => keys.contains (e.user_id, e.section_id))

/-- Modelled from the spec: `database.list_sections` lives in
services/enrollment/database.py, which is not under src/.  The cascade-delete
flow "verifies the section exists (not already deleted)" through it and treats
a deleted section as missing, so it returns the rows for the requested ids
excluding soft-deleted sections. -/
def list_sections (db : DB) (ids : List Int) : List Section :=
  db.sections.filter (fun s => ids.contains s.id && !s.deleted)

/-- GET /sections/{section_id}: raises 404 when `list_sections` returns no row. -/
def get_section (section_id : Int) (db : DB) : Except Err Section :=
  match list_sections db [section_id] with
  | [] => .error (.httpError 404 "Section not found")
  | s :: _ => .ok s

/-- The first query of `create_enrollment`:
`SELECT id FROM sections AS s WHERE s.id = :section AND s.capacity >
(SELECT COUNT(*) FROM enrollments WHERE section_id = :section) AND
s.freeze = FALSE AND s.deleted = FALSE`, fetched with `fetch_row`. -/
def directSeatCheck (db : DB) (sec : Int) : Option Section :=
  db.sections.find? (fun s =>
    s.id == sec
    && decide (countEnrollments db sec < s.capacity)
    && !s.freeze
    && !s.deleted)

/-- The second query of `create_enrollment`:
`SELECT id FROM sections AS s WHERE s.id = :section AND s.waitlist_capacity >
(SELECT COUNT(*) FROM waitlist WHERE section_id = :section) AND
(SELECT COUNT(*) FROM waitlist WHERE user_id = :user) < 3 AND
s.freeze = FALSE AND s.deleted = FALSE`, fetched with `fetch_row`. -/
def waitlistGateCheck (db : DB) (user sec : Int) : Option Section :=
  db.sections.find? (fun s =>
    s.id == sec
    && decide (countWaitlistBySection db sec < s.waitlist_capacity)
    && decide (countWaitlistByUser db user < 3)
    && !s.freeze
    && !s.deleted)

/-- The response model of POST /users/{user_id}/enrollments: the fields of the
enrollment row plus the assigned waitlist position, if any. -/
structure CreateEnrollmentResponse where
  user_id : Int
  section_id : Int
  status : EnrollmentStatus
  grade : Option String
  waitlist_position : Option Int
deriving DecidableEq, Repr

/-- The tail of `create_enrollment`: read back
`database.list_enrollments(db, [(user, section)])` and build the response from
`enrollments[0]` (raising `IndexError` when the list is empty). -/
def enrollmentResponse (db : DB) (user sec : Int) (wl : Option Int) :
    DB × Except Err CreateEnrollmentResponse :=
  match list_enrollments db [(user, sec)] with
  | [] => (db, .error .indexError)
  | e :: _ => (db, .ok ⟨e.user_id, e.section_id, e.status, e.grade, wl⟩)

/-- POST /users/{user_id}/enrollments (`create_enrollment` in api.py): the
join request.  After the authorization check it tries the direct-seat query;
on success it inserts an `Enrolled` row.  Otherwise it evaluates the waitlist
admission query; on success it inserts a waitlist row at position
`(SELECT COUNT(*) FROM waitlist WHERE section_id = :section)` and a matching
`Waitlisted` enrollment row.  Otherwise it raises 400.  Finally it reads the
enrollment back and returns it with the waitlist position. -/
def create_enrollment (user_id req_section : Int)
    (jwt_user : Int) (jwt_roles : List Role) (db : DB) :
    DB × Except Err CreateEnrollmentResponse :=
  if !(jwt_roles.contains Role.Registrar) && jwt_user != user_id then
    (db, .error (.httpError 403 "Not authorized"))
  else
    match directSeatCheck db req_section with
    | some _ =>
      let db1 : DB :=
        { db with enrollments :=
            db.enrollments ++ [⟨user_id, req_section, .Enrolled, none⟩] }
      enrollmentResponse db1 user_id req_section none
    | none =>
      match waitlistGateCheck db user_id req_section with
      | some _ =>
        let pos := countWaitlistBySection db req_section
        let db1 : DB :=
          { db with
              waitlist := db.waitlist ++ [⟨user_id, req_section, pos⟩],
              enrollments :=
                db.enrollments ++ [⟨user_id, req_section, .Waitlisted, none⟩] }
        enrollmentResponse db1 user_id req_section (some pos)
      | none =>
        (db, .error (.httpError 400 "Section is full and waitlist is full."))

/-- The row transformation of the UPDATE statement of `drop_user_enrollment`:
`UPDATE enrollments SET status = Dropped WHERE user_id = :user_id AND
section_id = :section_id AND status = Enrolled`. -/
def dropIfEnrolled (user_id section_id : Int) (e : Enrollment) : Enrollment :=
  if e.user_id == user_id && e.section_id == section_id
      && e.status == EnrollmentStatus.Enrolled
  then { e with status := .Dropped } else e

/-- The state after the UPDATE statement of `drop_user_enrollment`. -/
def updateDropEnrolled (user_id section_id : Int) (db : DB) : DB :=
  { db with enrollments := db.enrollments.map (dropIfEnrolled user_id section_id) }

/-- DELETE /users/{user_id}/enrollments/{section_id} (`drop_user_enrollment`):
run the UPDATE, then read the row back with `database.list_enrollments` and
return `enrollments[0]`.  The handler declares no JWT dependencies and
performs no section lookup. -/
def drop_user_enrollment (user_id section_id : Int) (db : DB) :
    DB × Except Err Enrollment :=
  match list_enrollments (updateDropEnrolled user_id section_id db)
      [(user_id, section_id)] with
  | [] => (updateDropEnrolled user_id section_id db, .error .indexError)
  | e :: _ => (updateDropEnrolled user_id section_id db, .ok e)

/-- The HTTP route wrapper for DELETE /users/{user_id}/enrollments/{section_id}:
the request arrives with the caller's JWT identity and roles, but the handler
declares no JWT dependencies, so both are discarded unread. -/
def drop_user_enrollment_route (jwt_user : Int) (jwt_roles : List Role)
    (user_id section_id : Int) (db : DB) : DB × Except Err Enrollment :=
  drop_user_enrollment user_id section_id db

/-- A parameter of `drop_user_waitlist` whose declared default is
`Depends(...)`: resolved to a value when the handler runs as an HTTP route,
but left as the raw `Depends` marker object when the handler is invoked as a
plain Python function (as `delete_section` does). -/
inductive JwtVal (α : Type)
  | resolved (a : α)
  | dependsDefault
deriving DecidableEq, Repr

/-- The row transformation of the renumbering UPDATE of `drop_user_waitlist`:
`UPDATE waitlist SET position = position - 1 WHERE section_id = :section_id
AND position > :position`. -/
def decrementPast (section_id pos : Int) (x : Waitlist) : Waitlist :=
  if x.section_id == section_id && pos < x.position
  then { x with position := x.position - 1 } else x

/-- The body of `drop_user_waitlist` after its authorization check:
`DELETE FROM waitlist WHERE user_id = :user_id AND section_id = :section_id
RETURNING position` (all matching rows are deleted; `fetch_row` reads the
first returned row, or `None`, in which case 400 is raised); then
`UPDATE waitlist SET position = position - 1 WHERE section_id = :section_id
AND position > :position`; then `DELETE FROM enrollments WHERE user_id =
:user_id AND section_id = :section_id AND status = Waitlisted`. -/
def dropWaitlistBody (user_id section_id : Int) (db : DB) :
    DB × Except Err Unit :=
  match db.waitlist.filter
      (fun w => w.user_id == user_id && w.section_id == section_id) with
  | [] => (db, .error (.httpError 400 "User is not on the waitlist."))
  | w :: _ =>
    let wl1 := db.waitlist.filter
      (fun x => !(x.user_id == user_id && x.section_id == section_id))
    let wl2 := wl1.map (decrementPast section_id w.position)
    let enr := db.enrollments.filter (fun e =>
      !(e.user_id == user_id && e.section_id == section_id
        && e.status == EnrollmentStatus.Waitlisted))
    ({ db with waitlist := wl2, enrollments := enr }, .ok ())

/-- DELETE /users/{user_id}/waitlist/{section_id} (`drop_user_waitlist`):
first the authorization check `if Role.REGISTRAR not in jwt_roles and
jwt_user != user_id`.  When `jwt_roles` is an unresolved `Depends` default the
membership test raises `TypeError`; when `jwt_user` is unresolved the `!=`
comparison against an int is object inequality, hence true. -/
def drop_user_waitlist (user_id section_id : Int)
    (jwt_user : JwtVal Int) (jwt_roles : JwtVal (List Role)) (db : DB) :
    DB × Except Err Unit :=
  match jwt_roles with
  | .dependsDefault => (db, .error .typeError)
  | .resolved roles =>
    if !(roles.contains Role.Registrar)
        && (match jwt_user with
            | .dependsDefault => true
            | .resolved u => u != user_id) then
      (db, .error (.httpError 403 "Not authorized"))
    else
      dropWaitlistBody user_id section_id db

/-- DELETE /sections/{section_id}/enrollments/{user_id}
(`drop_section_enrollment`): an authorization gate (registrar, the user
themselves, or the section's instructor) followed by a direct call to
`drop_user_enrollment`. -/
def drop_section_enrollment (section_id user_id : Int)
    (jwt_user : Int) (jwt_roles : List Role) (db : DB) :
    DB × Except Err Enrollment :=
  if !(jwt_roles.contains Role.Registrar) && jwt_user != user_id then
    match db.sections.find? (fun s => s.id == section_id) with
    | none => (db, .error (.httpError 404 "Section not found."))
    | some s =>
      if s.instructor_id != jwt_user then
        (db, .error (.httpError 403 "Not authorized"))
      else
        drop_user_enrollment user_id section_id db
  else
    drop_user_enrollment user_id section_id db

/-- The first loop of `delete_section`: for each `user_id` fetched from
`enrollments` (any status), call `drop_user_enrollment`; an exception aborts
the handler. -/
def dropEnrollmentsLoop (section_id : Int) : List Int → DB → DB × Except Err Unit
  | [], db => (db, .ok ())
  | u :: us, db =>
    match drop_user_enrollment u section_id db with
    | (db1, .error e) => (db1, .error e)
    | (db1, .ok _) => dropEnrollmentsLoop section_id us db1

/-- The second loop of `delete_section`: for each `user_id` fetched from
`waitlist`, call `drop_user_waitlist(u, section_id, db)` as a plain function,
leaving its `jwt_user` and `jwt_roles` parameters as their unresolved
`Depends` defaults; an exception aborts the handler. -/
def dropWaitlistLoop (section_id : Int) : List Int → DB → DB × Except Err Unit
  | [], db => (db, .ok ())
  | u :: us, db =>
    match drop_user_waitlist u section_id .dependsDefault .dependsDefault db with
    | (db1, .error e) => (db1, .error e)
    | (db1, .ok _) => dropWaitlistLoop section_id us db1

/-- DELETE /sections/{section_id} (`delete_section`): check the section via
`get_section` (404 when missing or deleted), mark it deleted, then loop
`drop_user_enrollment` over the user ids of every enrollment row of the
section and `drop_user_waitlist` over the user ids of every waitlist row. -/
def delete_section (section_id : Int) (db : DB) : DB × Except Err Unit :=
  match get_section section_id db with
  | .error e => (db, .error e)
  | .ok _ =>
    let db1 : DB :=
      { db with sections := db.sections.map (fun s =>
          if s.id == section_id then { s with deleted := true } else s) }
    let ue := (db1.enrollments.filter
        (fun e => e.section_id == section_id)).map (fun e => e.user_id)
    match dropEnrollmentsLoop section_id ue db1 with
    | (db2, .error e) => (db2, .error e)
    | (db2, .ok _) =>
      let uw := (db2.waitlist.filter
          (fun w => w.section_id == section_id)).map (fun w => w.user_id)
      dropWaitlistLoop section_id uw db2

/-- The positions of a section's rows in a waitlist table, in table order. -/
def positionsOf (wl : List Waitlist) (sec : Int) : List Int :=
  (wl.filter (fun w => w.section_id == sec)).map (fun w => w.position)

/-- The user ids of a section's rows in a waitlist table, in table order. -/
def usersOf (wl : List Waitlist) (sec : Int) : List Int :=
  (wl.filter (fun w => w.section_id == sec)).map (fun w => w.user_id)

/-- The positions of a section's waitlist rows in the database. -/
def sectionPositions (db : DB) (sec : Int) : List Int :=
  positionsOf db.waitlist sec

/-- The embedding of list indices into integer positions. -/
def intOfNat (n : Nat) : Int := n

/-- Contiguity of a waitlist table at a section: the positions are exactly
{0, …, k-1} for k the number of entries — no gaps, no duplicates. -/
def contiguousL (wl : List Waitlist) (sec : Int) : Prop :=
  (positionsOf wl sec).Perm
    ((List.range (positionsOf wl sec).length).map intOfNat)

/-- The waitlist-contiguity property of the spec, for the database state. -/
def contiguous (db : DB) (sec : Int) : Prop :=
  contiguousL db.waitlist sec

instance contiguousL_decidable (wl : List Waitlist) (sec : Int) :
    Decidable (contiguousL wl sec) :=
  List.decidablePerm _ _

instance contiguous_decidable (db : DB) (sec : Int) :
    Decidable (contiguous db sec) :=
  contiguousL_decidable db.waitlist sec

/-- The inductive invariant for the waitlist table: every section's positions
are contiguous from zero AND no user appears twice on one section's waitlist
(the strengthening that makes removal preserve contiguity). -/
def WLInv (wl : List Waitlist) : Prop :=
  ∀ sec : Int, contiguousL wl sec ∧ (usersOf wl sec).Nodup

/- ### General helper lemmas -/

/-- `find?` over a list in which `a` is the unique element satisfying `p`-style
predicates: when every element satisfying `p` is equal to `a`, the search
returns `a` exactly when `p a` holds. -/
theorem find_unique {α : Type} (p : α → Bool) (a : α) :
    ∀ (l : List α), a ∈ l → (∀ b ∈ l, p b = true → b = a) →
      l.find? p = if p a = true then some a else none := by
  intro l
  induction l with
  | nil => intro h; cases h
  | cons x xs ih =>
    intro hmem huniq
    by_cases hpa : p a = true
    · rw [if_pos hpa]
      by_cases hpx : p x = true
      · have hxa : x = a := huniq x (List.mem_cons_self x xs) hpx
        subst hxa
        exact List.find?_cons_of_pos _ hpx
      · rw [List.find?_cons_of_neg _ hpx]
        have hmem' : a ∈ xs := by
          rcases List.mem_cons.mp hmem with h | h
          · subst h; exact absurd hpa hpx
          · exact h
        rw [ih hmem' (fun b hb hpb => huniq b (List.mem_cons_of_mem x hb) hpb)]
        rw [if_pos hpa]
    · rw [if_neg hpa, List.find?_eq_none]
      intro b hb hpb
      exact hpa ((huniq b hb hpb) ▸ hpb)

/-- Characterization of the direct-seat query when `s` is the unique section
row with id `sec`. -/
theorem directSeatCheck_eq (db : DB) (sec : Int) (s : Section)
    (hmem : s ∈ db.sections) (hid : s.id = sec)
    (huniq : ∀ t ∈ db.sections, t.id = sec → t = s) :
    directSeatCheck db sec =
      if (decide (countEnrollments db sec < s.capacity)
          && !s.freeze && !s.deleted) = true
      then some s else none := by
  unfold directSeatCheck
  rw [find_unique _ s db.sections hmem ?uniq]
  case uniq =>
    intro b hb hpb
    simp only [Bool.and_eq_true, beq_iff_eq] at hpb
    exact huniq b hb hpb.1.1.1
  simp [hid]

/-- Characterization of the waitlist-admission query when `s` is the unique
section row with id `sec`. -/
theorem waitlistGateCheck_eq (db : DB) (user sec : Int) (s : Section)
    (hmem : s ∈ db.sections) (hid : s.id = sec)
    (huniq : ∀ t ∈ db.sections, t.id = sec → t = s) :
    waitlistGateCheck db user sec =
      if (decide (countWaitlistBySection db sec < s.waitlist_capacity)
          && decide (countWaitlistByUser db user < 3)
          && !s.freeze && !s.deleted) = true
      then some s else none := by
  unfold waitlistGateCheck
  rw [find_unique _ s db.sections hmem ?uniq]
  case uniq =>
    intro b hb hpb
    simp only [Bool.and_eq_true, beq_iff_eq] at hpb
    exact huniq b hb hpb.1.1.1.1
  simp [hid]

/-- The response-building tail never changes the state. -/
theorem enrollmentResponse_fst (db : DB) (u s : Int) (wl : Option Int) :
    (enrollmentResponse db u s wl).1 = db := by
  unfold enrollmentResponse
  split <;> rfl

/-- When the pair has at least one enrollment row, the response-building tail
returns a response carrying the given waitlist position. -/
theorem enrollmentResponse_ok (db : DB) (u s : Int) (wl : Option Int)
    (h : list_enrollments db [(u, s)] ≠ []) :
    ∃ resp, (enrollmentResponse db u s wl).2 = .ok resp ∧
      resp.waitlist_position = wl := by
  unfold enrollmentResponse
  split
  · next heq => exact absurd heq h
  · next e rest heq => exact ⟨_, rfl, rfl⟩

/-- After appending a row for the pair, the read-back list is non-empty. -/
theorem list_enrollments_ne_nil_of_append (db : DB) (u s : Int)
    (st : EnrollmentStatus) (g : Option String) (l : List Enrollment)
    (h : db.enrollments = l ++ [⟨u, s, st, g⟩]) :
    list_enrollments db [(u, s)] ≠ [] := by
  unfold list_enrollments
  rw [h]
  simp [List.filter_append]

/- ### C1 -/

/-- The C1 counterexample state: section 1 has capacity 1 and its only
enrollment row is a Dropped one, so it has zero Enrolled rows. -/
def c1db : DB := ⟨[⟨1, 1, 5, false, false, 9⟩], [⟨2, 1, .Dropped, none⟩], []⟩

/-- C1 counterexample: section 1 exists, is neither deleted nor frozen, has
capacity 1 and zero Enrolled-status rows, yet the join request of user 1 is
waitlisted at position 0 instead of directly enrolled, because the code counts
the Dropped row against the capacity. -/
theorem C1_counterexample :
    (c1db.enrollments.filter (fun e => e.section_id == 1
        && e.status == EnrollmentStatus.Enrolled)).length = 0 ∧
    c1db.sections = [⟨1, 1, 5, false, false, 9⟩] ∧
    (create_enrollment 1 1 1 [] c1db).2 =
      .ok ⟨1, 1, .Waitlisted, none, some 0⟩ ∧
    (create_enrollment 1 1 1 [] c1db).1.enrollments =
      [⟨2, 1, .Dropped, none⟩, ⟨1, 1, .Waitlisted, none⟩] := by decide

/-- C1 (amended): for a join request by an authorized caller against an
existing, non-deleted, non-frozen section, the direct-enrollment decision
counts ALL enrollment rows of the section — of any status, not only the
Enrolled ones; when that count is strictly below the capacity, an Enrolled row
with null grade is appended and the call succeeds with no waitlist position. -/
theorem C1_direct_join_counts_all_rows
    (db : DB) (user sec jwtu : Int) (roles : List Role) (s : Section)
    (hauth : roles.contains Role.Registrar = true ∨ jwtu = user)
    (hmem : s ∈ db.sections) (hid : s.id = sec)
    (huniq : ∀ t ∈ db.sections, t.id = sec → t = s)
    (hfreeze : s.freeze = false) (hdel : s.deleted = false)
    (hcap : countEnrollments db sec < s.capacity) :
    (create_enrollment user sec jwtu roles db).1 =
      { db with enrollments := db.enrollments ++ [⟨user, sec, .Enrolled, none⟩] } ∧
    ∃ resp, (create_enrollment user sec jwtu roles db).2 = .ok resp ∧
      resp.waitlist_position = none := by
  have hd : directSeatCheck db sec = some s := by
    rw [directSeatCheck_eq db sec s hmem hid huniq]
    simp [hcap, hfreeze, hdel]
  have hauthb : (!(roles.contains Role.Registrar) && jwtu != user) = false := by
    rcases hauth with h | h
    · rw [h]; rfl
    · subst h; simp
  have hred : create_enrollment user sec jwtu roles db =
      enrollmentResponse
        { db with enrollments := db.enrollments ++ [⟨user, sec, .Enrolled, none⟩] }
        user sec none := by
    unfold create_enrollment
    rw [hauthb, hd]
    rfl
  rw [hred]
  exact ⟨enrollmentResponse_fst _ _ _ _,
    enrollmentResponse_ok _ _ _ _
      (list_enrollments_ne_nil_of_append _ user sec .Enrolled none db.enrollments rfl)⟩

/-- Witness for C1 (amended): user 1 joins empty section 1 (capacity 1) and is
directly enrolled with no waitlist position. -/
def c1wdb : DB := ⟨[⟨1, 1, 5, false, false, 9⟩], [], []⟩

theorem C1_direct_join_counts_all_rows_witness :
    (create_enrollment 1 1 1 [] c1wdb).1 =
      { c1wdb with enrollments := c1wdb.enrollments ++ [⟨1, 1, .Enrolled, none⟩] } ∧
    ∃ resp, (create_enrollment 1 1 1 [] c1wdb).2 = .ok resp ∧
      resp.waitlist_position = none :=
  C1_direct_join_counts_all_rows c1wdb 1 1 1 [] ⟨1, 1, 5, false, false, 9⟩
    (Or.inr rfl) (by decide) (by decide) (by decide) rfl rfl (by decide)

/- ### C2 -/

/-- C2: for a join request by an authorized caller against an existing,
non-deleted, non-frozen section with no free direct seat, the two admission
gates decide the outcome together: when the section's waitlist count is below
its waitlist capacity and the user's waitlist count across all sections is
below 3, a waitlist entry is appended at position equal to the section's prior
waitlist count together with a matching Waitlisted enrollment row and that
position is returned; otherwise the request is rejected with the
section-and-waitlist-full error and no rows are written. -/
theorem C2_waitlist_admission
    (db : DB) (user sec jwtu : Int) (roles : List Role) (s : Section)
    (hauth : roles.contains Role.Registrar = true ∨ jwtu = user)
    (hmem : s ∈ db.sections) (hid : s.id = sec)
    (huniq : ∀ t ∈ db.sections, t.id = sec → t = s)
    (hfreeze : s.freeze = false) (hdel : s.deleted = false)
    (hfull : s.capacity ≤ countEnrollments db sec) :
    if countWaitlistBySection db sec < s.waitlist_capacity ∧
        countWaitlistByUser db user < 3 then
      (create_enrollment user sec jwtu roles db).1 =
        { db with
            waitlist := db.waitlist ++ [⟨user, sec, countWaitlistBySection db sec⟩],
            enrollments := db.enrollments ++ [⟨user, sec, .Waitlisted, none⟩] } ∧
      ∃ resp, (create_enrollment user sec jwtu roles db).2 = .ok resp ∧
        resp.waitlist_position = some (countWaitlistBySection db sec)
    else
      (create_enrollment user sec jwtu roles db).1 = db ∧
      (create_enrollment user sec jwtu roles db).2 =
        .error (.httpError 400 "Section is full and waitlist is full.") := by
  have hnot : ¬ countEnrollments db sec < s.capacity := not_lt.mpr hfull
  have hd : directSeatCheck db sec = none := by
    rw [directSeatCheck_eq db sec s hmem hid huniq]
    simp [hnot]
  have hauthb : (!(roles.contains Role.Registrar) && jwtu != user) = false := by
    rcases hauth with h | h
    · rw [h]; rfl
    · subst h; simp
  by_cases hg : countWaitlistBySection db sec < s.waitlist_capacity ∧
      countWaitlistByUser db user < 3
  · rw [if_pos hg]
    have hw : waitlistGateCheck db user sec = some s := by
      rw [waitlistGateCheck_eq db user sec s hmem hid huniq]
      simp [hg.1, hg.2, hfreeze, hdel]
    have hred : create_enrollment user sec jwtu roles db =
        enrollmentResponse
          { db with
              waitlist := db.waitlist ++ [⟨user, sec, countWaitlistBySection db sec⟩],
              enrollments := db.enrollments ++ [⟨user, sec, .Waitlisted, none⟩] }
          user sec (some (countWaitlistBySection db sec)) := by
      unfold create_enrollment
      rw [hauthb, hd, hw]
      rfl
    rw [hred]
    exact ⟨enrollmentResponse_fst _ _ _ _,
      enrollmentResponse_ok _ _ _ _
        (list_enrollments_ne_nil_of_append _ user sec .Waitlisted none
          db.enrollments rfl)⟩
  · rw [if_neg hg]
    have hw : waitlistGateCheck db user sec = none := by
      rw [waitlistGateCheck_eq db user sec s hmem hid huniq]
      rcases not_and_or.mp hg with h | h
      · simp [h]
      · simp [h]
    have hred : create_enrollment user sec jwtu roles db =
        (db, .error (.httpError 400 "Section is full and waitlist is full.")) := by
      unfold create_enrollment
      rw [hauthb, hd, hw]
      rfl
    rw [hred]
    exact ⟨rfl, rfl⟩

/-- Witness state for C2: section 1 has capacity 0 (so no direct seat) and
waitlist capacity 2 with an empty waitlist, and user 1 is on no waitlist. -/
def c2wdb : DB := ⟨[⟨1, 0, 2, false, false, 9⟩], [], []⟩

theorem C2_waitlist_admission_witness :
    if countWaitlistBySection c2wdb 1 < (2 : Int) ∧
        countWaitlistByUser c2wdb 1 < 3 then
      (create_enrollment 1 1 1 [] c2wdb).1 =
        { c2wdb with
            waitlist := c2wdb.waitlist ++ [⟨1, 1, countWaitlistBySection c2wdb 1⟩],
            enrollments := c2wdb.enrollments ++ [⟨1, 1, .Waitlisted, none⟩] } ∧
      ∃ resp, (create_enrollment 1 1 1 [] c2wdb).2 = .ok resp ∧
        resp.waitlist_position = some (countWaitlistBySection c2wdb 1)
    else
      (create_enrollment 1 1 1 [] c2wdb).1 = c2wdb ∧
      (create_enrollment 1 1 1 [] c2wdb).2 =
        .error (.httpError 400 "Section is full and waitlist is full.") :=
  C2_waitlist_admission c2wdb 1 1 1 [] ⟨1, 0, 2, false, false, 9⟩
    (Or.inr rfl) (by decide) (by decide) (by decide) rfl rfl (by decide)

/- ### C4 -/

/-- The Scenario-D state: section 1 with two Enrolled users (1 and 2) and one
Waitlisted user (3) holding the waitlist entry at position 0. -/
def c4db : DB := ⟨[⟨1, 10, 10, false, false, 9⟩],
  [⟨1, 1, .Enrolled, none⟩, ⟨2, 1, .Enrolled, none⟩, ⟨3, 1, .Waitlisted, none⟩],
  [⟨3, 1, 0⟩]⟩

/-- C4: evaluating CascadeDeleteSection at the Scenario-D state.  The section
is marked deleted and the two Enrolled rows become Dropped, but the waitlist
loop invokes `drop_user_waitlist` as a plain function whose JWT parameters are
unresolved `Depends` defaults, so the roles membership test raises TypeError:
the Waitlisted enrollment row stays Waitlisted and the waitlist entry remains
— not the claimed "all 3 rows Dropped and 0 waitlist entries".  A missing or
already-deleted section does give NotFound, as claimed. -/
theorem C4_cascade_delete_scenario :
    (delete_section 1 c4db).2 = .error .typeError ∧
    (delete_section 1 c4db).1.sections = [⟨1, 10, 10, false, true, 9⟩] ∧
    (delete_section 1 c4db).1.enrollments =
      [⟨1, 1, .Dropped, none⟩, ⟨2, 1, .Dropped, none⟩, ⟨3, 1, .Waitlisted, none⟩] ∧
    (delete_section 1 c4db).1.waitlist = [⟨3, 1, 0⟩] ∧
    (delete_section 2 c4db).2 = .error (.httpError 404 "Section not found") ∧
    (delete_section 1 ⟨[⟨1, 10, 10, false, true, 9⟩], [], []⟩).2 =
      .error (.httpError 404 "Section not found") := by decide

/- ### C7 -/

def c7db : DB := ⟨[⟨1, 2, 5, false, false, 9⟩], [], []⟩

/-- C7 counterexample: starting from an empty enrollments table, user 1 joins
section 1 (capacity 2) twice; the code performs no duplicate check, so the
pair (1, 1) ends up holding TWO simultaneous active (Enrolled) rows. -/
theorem C7_counterexample :
    (create_enrollment 1 1 1 [] (create_enrollment 1 1 1 [] c7db).1).1.enrollments =
      [⟨1, 1, .Enrolled, none⟩, ⟨1, 1, .Enrolled, none⟩] ∧
    ((create_enrollment 1 1 1 [] (create_enrollment 1 1 1 [] c7db).1).1.enrollments.filter
      (fun e => e.user_id == 1 && e.section_id == 1
        && !(e.status == EnrollmentStatus.Dropped))).length = 2 := by decide

/-- C7 (amended): a single join request appends at most one enrollment row:
the enrollments table is unchanged, or gains exactly one Enrolled row, or
exactly one Waitlisted row for the requested pair.  (No check prevents a pair
already holding an active row from acquiring another through a further join.) -/
theorem C7_join_appends_at_most_one_row
    (db : DB) (user sec jwtu : Int) (roles : List Role) :
    (create_enrollment user sec jwtu roles db).1.enrollments = db.enrollments ∨
    (create_enrollment user sec jwtu roles db).1.enrollments =
      db.enrollments ++ [⟨user, sec, .Enrolled, none⟩] ∨
    (create_enrollment user sec jwtu roles db).1.enrollments =
      db.enrollments ++ [⟨user, sec, .Waitlisted, none⟩] := by
  unfold create_enrollment
  by_cases ha : (!(roles.contains Role.Registrar) && jwtu != user) = true
  · rw [if_pos ha]
    exact Or.inl rfl
  · rw [if_neg ha]
    split
    · right; left
      simp only [enrollmentResponse_fst]
    · split
      · right; right
        simp only [enrollmentResponse_fst]
      · exact Or.inl rfl

/- ### C8 -/

/-- C8: DropEnrollment for a pair with no enrollment rows raises the Python
IndexError from `enrollments[0]` (surfacing as an unhandled 500), not a
NotFound response: shown on the empty database and on a database whose only
enrollment row belongs to a different user. -/
theorem C8_drop_missing_enrollment_raises_index_error :
    (drop_user_enrollment 1 1 ⟨[], [], []⟩).2 = .error .indexError ∧
    (drop_user_enrollment 1 1
      ⟨[⟨1, 10, 10, false, false, 9⟩], [⟨2, 1, .Enrolled, none⟩], []⟩).2 =
      .error .indexError := by decide

/- ### C10 -/

/-- C10: the DropEnrollment route ignores the caller entirely — any two
requests differing only in the JWT identity and roles produce identical states
and responses — while the DropWaitlist route does gate on the caller: a
non-registrar caller distinct from the target user receives 403, and the
target user themselves never does. -/
theorem C10_drop_enrollment_ignores_caller
    (db : DB) (u s ju1 ju2 : Int) (r1 r2 : List Role) :
    drop_user_enrollment_route ju1 r1 u s db =
      drop_user_enrollment_route ju2 r2 u s db ∧
    (drop_user_waitlist u s (.resolved (u + 1)) (.resolved []) db).2 =
      .error (.httpError 403 "Not authorized") ∧
    (drop_user_waitlist u s (.resolved u) (.resolved []) db).2 ≠
      .error (.httpError 403 "Not authorized") := by
  refine ⟨rfl, ?_, ?_⟩
  · have hne : ((u + 1 : Int) != u) = true := by
      simp [bne_iff_ne]
    show (if !(List.contains [] Role.Registrar) && ((u + 1 : Int) != u) then
        (db, Except.error (Err.httpError 403 "Not authorized"))
      else dropWaitlistBody u s db).2 = Except.error (Err.httpError 403 "Not authorized")
    rw [hne]
    rfl
  · have heq : ((u : Int) != u) = false := by simp
    show (if !(List.contains [] Role.Registrar) && ((u : Int) != u) then
        (db, Except.error (Err.httpError 403 "Not authorized"))
      else dropWaitlistBody u s db).2 ≠ Except.error (Err.httpError 403 "Not authorized")
    rw [heq]
    show (dropWaitlistBody u s db).2 ≠ Except.error (Err.httpError 403 "Not authorized")
    unfold dropWaitlistBody
    split
    · intro h
      rw [Prod.snd] at h
      cases h
    · intro h
      cases h

/- ### Helper lemmas for the drop handlers -/

/-- The enrollments table after DropEnrollment is the UPDATE image of the old
table, whatever the read-back finds. -/
theorem drop_user_enrollment_enrollments_eq (user sec : Int) (db : DB) :
    (drop_user_enrollment user sec db).1.enrollments =
      db.enrollments.map (dropIfEnrolled user sec) := by
  unfold drop_user_enrollment
  split <;> rfl

/-- The response of DropEnrollment depends only on the enrollments table. -/
theorem drop_user_enrollment_snd_eq (user sec : Int) (db1 db2 : DB)
    (h : db1.enrollments = db2.enrollments) :
    (drop_user_enrollment user sec db1).2 = (drop_user_enrollment user sec db2).2 := by
  unfold drop_user_enrollment list_enrollments updateDropEnrolled
  dsimp only
  rw [h]
  split <;> rfl

/-- The observable effect of the DropWaitlist body depends only on the
waitlist and enrollments tables. -/
theorem dropWaitlistBody_state_eq (user sec : Int) (db1 db2 : DB)
    (hw : db1.waitlist = db2.waitlist) (he : db1.enrollments = db2.enrollments) :
    (dropWaitlistBody user sec db1).1.waitlist =
      (dropWaitlistBody user sec db2).1.waitlist ∧
    (dropWaitlistBody user sec db1).1.enrollments =
      (dropWaitlistBody user sec db2).1.enrollments ∧
    (dropWaitlistBody user sec db1).2 = (dropWaitlistBody user sec db2).2 := by
  unfold dropWaitlistBody
  rw [hw, he]
  split
  · exact ⟨hw, he, rfl⟩
  · exact ⟨rfl, rfl, rfl⟩

/- ### C5 -/

/-- The C5 state: user 1 is waitlisted on section 1, with the matching
Waitlisted enrollment row. -/
def c5db : DB :=
  ⟨[⟨1, 10, 10, false, false, 9⟩], [⟨1, 1, .Waitlisted, none⟩], [⟨1, 1, 0⟩]⟩

/-- C5 counterexample: DropWaitlist succeeds for user 1 and afterwards the
enrollments table is EMPTY — the Waitlisted enrollment row was physically
deleted by `DELETE FROM enrollments`, not transitioned to Dropped as the
claim states. -/
theorem C5_counterexample :
    c5db.enrollments = [⟨1, 1, .Waitlisted, none⟩] ∧
    (drop_user_waitlist 1 1 (.resolved 1) (.resolved []) c5db).2 = .ok () ∧
    (drop_user_waitlist 1 1 (.resolved 1) (.resolved []) c5db).1.enrollments = [] ∧
    (drop_user_waitlist 1 1 (.resolved 1) (.resolved []) c5db).1.waitlist = [] := by
  decide

/-- C5 (amended): for an authorized caller and a user who is on the section's
waitlist, DropWaitlist succeeds, removes every waitlist entry of the pair
(renumbering the tail), and physically DELETES the pair's Waitlisted
enrollment rows instead of transitioning them to Dropped: the resulting
enrollments table is the old one with those rows filtered out — a sublist of
the old table, with no row transitioned. -/
theorem C5_drop_waitlist_deletes_enrollment
    (db : DB) (user sec jwtu : Int) (roles : List Role)
    (hauth : roles.contains Role.Registrar = true ∨ jwtu = user)
    (hon : db.waitlist.filter
      (fun w => w.user_id == user && w.section_id == sec) ≠ []) :
    (drop_user_waitlist user sec (.resolved jwtu) (.resolved roles) db).2 = .ok () ∧
    ((drop_user_waitlist user sec (.resolved jwtu) (.resolved roles) db).1.waitlist.filter
      (fun w => w.user_id == user && w.section_id == sec)) = [] ∧
    (drop_user_waitlist user sec (.resolved jwtu) (.resolved roles) db).1.enrollments =
      db.enrollments.filter (fun e =>
        !(e.user_id == user && e.section_id == sec
          && e.status == EnrollmentStatus.Waitlisted)) ∧
    (drop_user_waitlist user sec (.resolved jwtu) (.resolved roles) db).1.enrollments.Sublist
      db.enrollments := by
  have hauthb : (!(roles.contains Role.Registrar) && (jwtu != user)) = false := by
    rcases hauth with h | h
    · rw [h]; rfl
    · subst h; simp
  have hred : drop_user_waitlist user sec (.resolved jwtu) (.resolved roles) db =
      dropWaitlistBody user sec db := by
    show (if !(roles.contains Role.Registrar) && (jwtu != user) then
        (db, Except.error (Err.httpError 403 "Not authorized"))
      else dropWaitlistBody user sec db) = dropWaitlistBody user sec db
    rw [hauthb]
    rfl
  rw [hred]
  unfold dropWaitlistBody
  split
  · next heq => exact absurd heq hon
  · next w rest heq =>
    refine ⟨rfl, ?_, rfl, ?_⟩
    · dsimp only
      rw [List.filter_eq_nil_iff]
      intro a ha
      rcases List.mem_map.mp ha with ⟨x, hx, hphi⟩
      have hkeep := (List.mem_filter.mp hx).2
      rw [Bool.not_eq_true'] at hkeep
      have husr : (decrementPast sec w.position x).user_id = x.user_id := by
        unfold decrementPast
        split <;> rfl
      have hsec2 : (decrementPast sec w.position x).section_id = x.section_id := by
        unfold decrementPast
        split <;> rfl
      rw [← hphi, husr, hsec2]
      simp [hkeep]
    · dsimp only
      exact List.filter_sublist _

theorem C5_drop_waitlist_deletes_enrollment_witness :
    (drop_user_waitlist 1 1 (.resolved 1) (.resolved []) c5db).2 = .ok () ∧
    ((drop_user_waitlist 1 1 (.resolved 1) (.resolved []) c5db).1.waitlist.filter
      (fun w => w.user_id == 1 && w.section_id == 1)) = [] ∧
    (drop_user_waitlist 1 1 (.resolved 1) (.resolved []) c5db).1.enrollments =
      c5db.enrollments.filter (fun e =>
        !(e.user_id == 1 && e.section_id == 1
          && e.status == EnrollmentStatus.Waitlisted)) ∧
    (drop_user_waitlist 1 1 (.resolved 1) (.resolved []) c5db).1.enrollments.Sublist
      c5db.enrollments :=
  C5_drop_waitlist_deletes_enrollment c5db 1 1 1 [] (Or.inr rfl) (by decide)

/- ### C6 -/

/-- The C6 state: section 1 is frozen, user 1 holds an Enrolled row on it. -/
def c6db : DB := ⟨[⟨1, 10, 10, true, false, 9⟩], [⟨1, 1, .Enrolled, none⟩], []⟩

/-- C6 counterexample: section 1 has freeze = true, yet DropEnrollment
succeeds against it — user 1's Enrolled row is transitioned to Dropped and
returned, contradicting "no join and no drop operation succeeds against a
frozen section". -/
theorem C6_counterexample :
    c6db.sections = [⟨1, 10, 10, true, false, 9⟩] ∧
    (drop_user_enrollment 1 1 c6db).2 = .ok ⟨1, 1, .Dropped, none⟩ ∧
    (drop_user_enrollment 1 1 c6db).1.enrollments = [⟨1, 1, .Dropped, none⟩] := by
  decide

/-- C6 (amended): a join request can never succeed against a frozen or
deleted section (it leaves the state unchanged and raises an error), but the
drop handlers read no section state at all: DropEnrollment's effect and
response, and the DropWaitlist body's effect and response, are identical
whatever the sections table holds — in particular they succeed against frozen
sections and affect rows of deleted sections. -/
theorem C6_freeze_blocks_joins_not_drops
    (db : DB) (user sec jwtu : Int) (roles : List Role) (s : Section)
    (hmem : s ∈ db.sections) (hid : s.id = sec)
    (huniq : ∀ t ∈ db.sections, t.id = sec → t = s)
    (hfd : s.freeze = true ∨ s.deleted = true) :
    ((create_enrollment user sec jwtu roles db).1 = db ∧
      ∃ err, (create_enrollment user sec jwtu roles db).2 = .error err) ∧
    (∀ l : List Section,
      (drop_user_enrollment user sec { db with sections := l }).1.enrollments =
        (drop_user_enrollment user sec db).1.enrollments ∧
      (drop_user_enrollment user sec { db with sections := l }).2 =
        (drop_user_enrollment user sec db).2) ∧
    (∀ l : List Section,
      (dropWaitlistBody user sec { db with sections := l }).1.waitlist =
        (dropWaitlistBody user sec db).1.waitlist ∧
      (dropWaitlistBody user sec { db with sections := l }).1.enrollments =
        (dropWaitlistBody user sec db).1.enrollments ∧
      (dropWaitlistBody user sec { db with sections := l }).2 =
        (dropWaitlistBody user sec db).2) := by
  refine ⟨?_, ?_, ?_⟩
  · have hd : directSeatCheck db sec = none := by
      rw [directSeatCheck_eq db sec s hmem hid huniq]
      rcases hfd with h | h <;> simp [h]
    have hw : waitlistGateCheck db user sec = none := by
      rw [waitlistGateCheck_eq db user sec s hmem hid huniq]
      rcases hfd with h | h <;> simp [h]
    by_cases ha : (!(roles.contains Role.Registrar) && jwtu != user) = true
    · have hred : create_enrollment user sec jwtu roles db =
          (db, .error (.httpError 403 "Not authorized")) := by
        unfold create_enrollment
        rw [if_pos ha]
      rw [hred]
      exact ⟨rfl, ⟨_, rfl⟩⟩
    · have hred : create_enrollment user sec jwtu roles db =
          (db, .error (.httpError 400 "Section is full and waitlist is full.")) := by
        unfold create_enrollment
        rw [if_neg ha, hd, hw]
      rw [hred]
      exact ⟨rfl, ⟨_, rfl⟩⟩
  · intro l
    refine ⟨?_, ?_⟩
    · rw [drop_user_enrollment_enrollments_eq, drop_user_enrollment_enrollments_eq]
    · exact drop_user_enrollment_snd_eq user sec _ _ rfl
  · intro l
    exact dropWaitlistBody_state_eq user sec _ _ rfl rfl

theorem C6_freeze_blocks_joins_not_drops_witness :
    ((create_enrollment 1 1 1 [] c6db).1 = c6db ∧
      ∃ err, (create_enrollment 1 1 1 [] c6db).2 = .error err) ∧
    ((drop_user_enrollment 1 1 { c6db with sections := [] }).1.enrollments =
        (drop_user_enrollment 1 1 c6db).1.enrollments ∧
      (drop_user_enrollment 1 1 { c6db with sections := [] }).2 =
        (drop_user_enrollment 1 1 c6db).2) ∧
    ((dropWaitlistBody 1 1 { c6db with sections := [] }).1.waitlist =
        (dropWaitlistBody 1 1 c6db).1.waitlist ∧
      (dropWaitlistBody 1 1 { c6db with sections := [] }).1.enrollments =
        (dropWaitlistBody 1 1 c6db).1.enrollments ∧
      (dropWaitlistBody 1 1 { c6db with sections := [] }).2 =
        (dropWaitlistBody 1 1 c6db).2) :=
  have h := C6_freeze_blocks_joins_not_drops c6db 1 1 1 []
    ⟨1, 10, 10, true, false, 9⟩ (by decide) (by decide) (by decide) (Or.inl rfl)
  ⟨h.1, h.2.1 [], h.2.2 []⟩

/- ### C9 -/

/-- The UPDATE row transformation of DropEnrollment is idempotent: a row it
has dropped no longer matches the status = Enrolled clause. -/
theorem dropIfEnrolled_idem (user sec : Int) (e : Enrollment) :
    dropIfEnrolled user sec (dropIfEnrolled user sec e) = dropIfEnrolled user sec e := by
  unfold dropIfEnrolled
  split
  · next h => simp
  · next h => simp [h]

/-- Re-running the DropEnrollment UPDATE has no further effect. -/
theorem updateDropEnrolled_idem (user sec : Int) (db : DB) :
    updateDropEnrolled user sec (updateDropEnrolled user sec db) =
      updateDropEnrolled user sec db := by
  unfold updateDropEnrolled
  dsimp only
  congr 1
  rw [List.map_map]
  refine List.map_congr_left (fun e _ => ?_)
  exact dropIfEnrolled_idem user sec e

/-- Filtering commutes with a map that leaves the filtered fields unchanged. -/
theorem filter_map_comm {α : Type} (f : α → α) (p : α → Bool)
    (hp : ∀ a, p (f a) = p a) : ∀ (l : List α),
    (l.map f).filter p = (l.filter p).map f := by
  intro l
  induction l with
  | nil => rfl
  | cons x xs ih =>
    simp only [List.map_cons, List.filter_cons, hp x]
    by_cases hx : p x = true
    · simp [hx, ih]
    · simp [hx, ih]

/-- Reading a pair's rows after the DropEnrollment UPDATE is the same as
updating the rows read before it. -/
theorem list_enrollments_update (user sec : Int) (db : DB) :
    list_enrollments (updateDropEnrolled user sec db) [(user, sec)] =
      (list_enrollments db [(user, sec)]).map (dropIfEnrolled user sec) := by
  unfold list_enrollments updateDropEnrolled
  dsimp only
  refine filter_map_comm _ _ (fun e => ?_) db.enrollments
  unfold dropIfEnrolled
  split <;> rfl

/-- Full characterization of DropEnrollment as UPDATE followed by read-back. -/
theorem drop_user_enrollment_eq (user sec : Int) (db : DB) :
    drop_user_enrollment user sec db =
      (updateDropEnrolled user sec db,
        match list_enrollments (updateDropEnrolled user sec db) [(user, sec)] with
        | [] => .error .indexError
        | e :: _ => .ok e) := by
  unfold drop_user_enrollment
  split <;> rfl

/-- C9: for a pair holding an enrollment row, a second DropEnrollment leaves
the state exactly as after the first call (the UPDATE matches no Enrolled row
any more) and returns the same value as the first call; when the pair's first
row was Enrolled, that value is the now-Dropped row. -/
theorem C9_double_drop_noop (db : DB) (user sec : Int)
    (hrow : list_enrollments db [(user, sec)] ≠ []) :
    (drop_user_enrollment user sec (drop_user_enrollment user sec db).1).1 =
      (drop_user_enrollment user sec db).1 ∧
    (drop_user_enrollment user sec (drop_user_enrollment user sec db).1).2 =
      (drop_user_enrollment user sec db).2 ∧
    (∀ e rest, list_enrollments db [(user, sec)] = e :: rest →
      e.status = EnrollmentStatus.Enrolled →
      (drop_user_enrollment user sec (drop_user_enrollment user sec db).1).2 =
        .ok { e with status := EnrollmentStatus.Dropped }) := by
  have hfst : (drop_user_enrollment user sec db).1 = updateDropEnrolled user sec db := by
    rw [drop_user_enrollment_eq]
  have hupd2 : updateDropEnrolled user sec ((drop_user_enrollment user sec db).1) =
      (drop_user_enrollment user sec db).1 := by
    rw [hfst, updateDropEnrolled_idem]
  have hscrut : list_enrollments
      (updateDropEnrolled user sec ((drop_user_enrollment user sec db).1))
      [(user, sec)] =
      list_enrollments (updateDropEnrolled user sec db) [(user, sec)] := by
    rw [hupd2, hfst]
  refine ⟨?_, ?_, ?_⟩
  · rw [drop_user_enrollment_eq user sec ((drop_user_enrollment user sec db).1)]
    dsimp only
    exact hupd2
  · rw [drop_user_enrollment_eq user sec ((drop_user_enrollment user sec db).1),
        drop_user_enrollment_eq user sec db]
    dsimp only
    rw [updateDropEnrolled_idem]
  · intro e rest heq hst
    have hkey : ([((user : Int), (sec : Int))].contains (e.user_id, e.section_id)) = true := by
      have hmem : e ∈ list_enrollments db [(user, sec)] := by
        rw [heq]
        exact List.mem_cons_self _ _
      exact (List.mem_filter.mp hmem).2
    have hpair : e.user_id = user ∧ e.section_id = sec := by
      simpa using hkey
    have hcond : (e.user_id == user && e.section_id == sec
        && e.status == EnrollmentStatus.Enrolled) = true := by
      simp [hpair.1, hpair.2, hst]
    rw [drop_user_enrollment_eq user sec ((drop_user_enrollment user sec db).1)]
    dsimp only
    rw [hscrut, list_enrollments_update, heq, List.map_cons]
    show Except.ok (dropIfEnrolled user sec e) =
      Except.ok { e with status := EnrollmentStatus.Dropped }
    unfold dropIfEnrolled
    rw [if_pos hcond]

/-- Witness state for C9: user 1 holds an Enrolled row on section 1. -/
def c9db : DB := ⟨[⟨1, 10, 10, false, false, 9⟩], [⟨1, 1, .Enrolled, none⟩], []⟩

theorem C9_double_drop_noop_witness :
    (drop_user_enrollment 1 1 (drop_user_enrollment 1 1 c9db).1).1 =
      (drop_user_enrollment 1 1 c9db).1 ∧
    (drop_user_enrollment 1 1 (drop_user_enrollment 1 1 c9db).1).2 =
      (drop_user_enrollment 1 1 c9db).2 ∧
    (∀ e rest, list_enrollments c9db [(1, 1)] = e :: rest →
      e.status = EnrollmentStatus.Enrolled →
      (drop_user_enrollment 1 1 (drop_user_enrollment 1 1 c9db).1).2 =
        .ok { e with status := EnrollmentStatus.Dropped }) :=
  C9_double_drop_noop c9db 1 1 (by decide)

/- ### C3: pure list lemmas for waitlist contiguity -/

/-- Erasing position j from [0, …, k-1] and decrementing every larger
position yields [0, …, k-2]. -/
theorem erase_map_decrement (k j : Nat) (hj : j < k) :
    ((((List.range k).map intOfNat).erase (intOfNat j)).map
      (fun x => if intOfNat j < x then x - 1 else x)) =
    (List.range (k - 1)).map intOfNat := by
  induction k with
  | zero => cases hj
  | succ m ih =>
    rw [List.range_succ, List.map_append]
    simp only [List.map_cons, List.map_nil]
    by_cases hjm : j = m
    · subst hjm
      have hnotmem : intOfNat j ∉ (List.range j).map intOfNat := by
        intro hmem
        rcases List.mem_map.mp hmem with ⟨i, hi, hee⟩
        have hlt : i < j := List.mem_range.mp hi
        simp only [intOfNat] at hee
        omega
      rw [List.erase_append_right _ hnotmem]
      rw [List.erase_cons_head, List.append_nil]
      have hid : ∀ x ∈ (List.range j).map intOfNat,
          (if intOfNat j < x then x - 1 else x) = x := by
        intro x hx
        rcases List.mem_map.mp hx with ⟨i, hi, rfl⟩
        have hlt : i < j := List.mem_range.mp hi
        rw [if_neg]
        simp only [intOfNat]
        omega
      rw [List.map_congr_left hid]
      simp
    · have hjm2 : j < m := by omega
      have hmem : intOfNat j ∈ (List.range m).map intOfNat :=
        List.mem_map.mpr ⟨j, List.mem_range.mpr hjm2, rfl⟩
      rw [List.erase_append_left _ hmem]
      simp only [List.map_append, List.map_cons, List.map_nil]
      rw [ih hjm2]
      rw [if_pos (by simp only [intOfNat]; omega : intOfNat j < intOfNat m)]
      have hm1 : intOfNat m - 1 = intOfNat (m - 1) := by
        simp only [intOfNat]
        omega
      rw [hm1]
      have hms : m - 1 + 1 = m := by omega
      rw [show (m + 1 - 1) = m from rfl]
      calc (List.range (m - 1)).map intOfNat ++ [intOfNat (m - 1)]
          = (List.range (m - 1) ++ [m - 1]).map intOfNat := by
            rw [List.map_append]
            rfl
        _ = (List.range (m - 1 + 1)).map intOfNat := by
            rw [List.range_succ]
        _ = (List.range m).map intOfNat := by rw [hms]

/-- Permutation version: removing one occurrence of a position p from a
contiguous multiset of positions and decrementing every larger one is again
contiguous, one element shorter. -/
theorem perm_erase_decrement (l : List Int) (k : Nat) (p : Int)
    (hl : l.Perm ((List.range k).map intOfNat)) (hp : p ∈ l) :
    ((l.erase p).map (fun x => if p < x then x - 1 else x)).Perm
      ((List.range (k - 1)).map intOfNat) := by
  have hp2 : p ∈ (List.range k).map intOfNat := hl.mem_iff.mp hp
  rcases List.mem_map.mp hp2 with ⟨j, hj, rfl⟩
  have hjk : j < k := List.mem_range.mp hj
  have h1 := (hl.erase (intOfNat j)).map (fun x => if intOfNat j < x then x - 1 else x)
  rw [erase_map_decrement k j hjk] at h1
  exact h1

/-- When the images under f are distinct, filtering out the elements that
agree with `a` under f removes exactly the one occurrence of `a`. -/
theorem filter_ne_eq_erase {α β : Type} [DecidableEq α] [DecidableEq β]
    (f : α → β) (a : α) : ∀ (l : List α),
    (l.map f).Nodup → a ∈ l →
    l.filter (fun x => !(f x == f a)) = l.erase a := by
  intro l
  induction l with
  | nil => intro _ h; cases h
  | cons x xs ih =>
    intro hnd hmem
    rcases List.mem_cons.mp hmem with hxa | hmem2
    · rw [hxa, List.erase_cons_head, List.filter_cons_of_neg (by simp)]
      refine List.filter_eq_self.mpr ?_
      intro y hy
      have hfy : f a ∉ xs.map f := hxa ▸ (List.nodup_cons.mp hnd).1
      have hne : f y ≠ f a := fun hEq => hfy (hEq ▸ List.mem_map_of_mem f hy)
      rw [hxa] at hne
      simp [hne]
    · have hfx : f x ∉ xs.map f := (List.nodup_cons.mp hnd).1
      have hfa : f a ∈ xs.map f := List.mem_map_of_mem f hmem2
      have hne : f x ≠ f a := fun hEq => hfx (hEq ▸ hfa)
      have hxa2 : x ≠ a := fun hEq => hne (by rw [hEq])
      rw [List.filter_cons_of_pos (by simp [hne])]
      rw [List.erase_cons_tail (by simp [hxa2])]
      rw [ih (List.nodup_cons.mp hnd).2 hmem2]

/-- Mapping commutes with erasing one element when the images are distinct. -/
theorem map_erase_of_nodup {α β : Type} [DecidableEq α] [DecidableEq β]
    (f : α → β) (a : α) : ∀ (l : List α),
    (l.map f).Nodup → a ∈ l →
    (l.erase a).map f = (l.map f).erase (f a) := by
  intro l
  induction l with
  | nil => intro _ h; cases h
  | cons x xs ih =>
    intro hnd hmem
    rcases List.mem_cons.mp hmem with hxa | hmem2
    · rw [hxa, List.erase_cons_head, List.map_cons, List.erase_cons_head]
    · have hfx : f x ∉ xs.map f := (List.nodup_cons.mp hnd).1
      have hfa : f a ∈ xs.map f := List.mem_map_of_mem f hmem2
      have hne : f x ≠ f a := fun hEq => hfx (hEq ▸ hfa)
      have hxa2 : x ≠ a := fun hEq => hne (by rw [hEq])
      rw [List.erase_cons_tail (by simp [hxa2]), List.map_cons, List.map_cons,
        List.erase_cons_tail (by simp [hne]), ih (List.nodup_cons.mp hnd).2 hmem2]

/-- Appending a fresh element keeps a list without duplicates. -/
theorem nodup_append_singleton {α : Type} (l : List α) (a : α)
    (h : l.Nodup) (ha : a ∉ l) : (l ++ [a]).Nodup := by
  simp [List.nodup_append, h, ha]

/-- The integer embedding of positions is injective. -/
theorem intOfNat_injective : Function.Injective intOfNat := by
  intro a b h
  simp only [intOfNat] at h
  omega

theorem positionsOf_append_hit (wl : List Waitlist) (row : Waitlist) (sec : Int)
    (h : (row.section_id == sec) = true) :
    positionsOf (wl ++ [row]) sec = positionsOf wl sec ++ [row.position] := by
  unfold positionsOf
  simp [List.filter_append, h]

theorem positionsOf_append_miss (wl : List Waitlist) (row : Waitlist) (sec : Int)
    (h : (row.section_id == sec) = false) :
    positionsOf (wl ++ [row]) sec = positionsOf wl sec := by
  unfold positionsOf
  simp [List.filter_append, h]

theorem usersOf_append_hit (wl : List Waitlist) (row : Waitlist) (sec : Int)
    (h : (row.section_id == sec) = true) :
    usersOf (wl ++ [row]) sec = usersOf wl sec ++ [row.user_id] := by
  unfold usersOf
  simp [List.filter_append, h]

theorem usersOf_append_miss (wl : List Waitlist) (row : Waitlist) (sec : Int)
    (h : (row.section_id == sec) = false) :
    usersOf (wl ++ [row]) sec = usersOf wl sec := by
  unfold usersOf
  simp [List.filter_append, h]

/-- The invariant holds for the empty waitlist table. -/
theorem WLInv_nil : WLInv ([] : List Waitlist) := by
  intro sec
  exact ⟨List.Perm.refl _, List.Pairwise.nil⟩

/-- Appending a tail entry for a user not yet on the section's waitlist
preserves the invariant: the new position is exactly the section's prior
count, extending {0, …, k-1} to {0, …, k}. -/
theorem WLInv_append (wl : List Waitlist) (hinv : WLInv wl) (u s : Int)
    (hnew : ∀ w ∈ wl, ¬(w.user_id = u ∧ w.section_id = s)) :
    WLInv (wl ++ [⟨u, s, intOfNat (wl.filter (fun w => w.section_id == s)).length⟩]) := by
  intro sec
  rcases hinv sec with ⟨hcont, hnd⟩
  by_cases hse : s = sec
  · subst hse
    have hrow : (((⟨u, s, intOfNat (wl.filter (fun w => w.section_id == s)).length⟩ :
        Waitlist)).section_id == s) = true := by simp
    constructor
    · unfold contiguousL
      rw [positionsOf_append_hit _ _ _ hrow]
      have hlen : (wl.filter (fun w => w.section_id == s)).length =
          (positionsOf wl s).length := by
        unfold positionsOf
        rw [List.length_map]
      dsimp only
      rw [hlen]
      have hlen2 : (positionsOf wl s ++ [intOfNat (positionsOf wl s).length]).length =
          (positionsOf wl s).length + 1 := by
        rw [List.length_append]
        rfl
      have hsplit : (List.range ((positionsOf wl s).length + 1)).map intOfNat =
          (List.range (positionsOf wl s).length).map intOfNat ++
            [intOfNat (positionsOf wl s).length] := by
        rw [List.range_succ, List.map_append]
        rfl
      rw [hlen2, hsplit]
      exact hcont.append_right _
    · rw [usersOf_append_hit _ _ _ hrow]
      refine nodup_append_singleton _ _ hnd ?_
      intro hmemu
      rcases List.mem_map.mp hmemu with ⟨w, hw, hwu⟩
      have hws : (w.section_id == s) = true := (List.mem_filter.mp hw).2
      exact hnew w (List.mem_filter.mp hw).1 ⟨hwu, by simpa using hws⟩
  · have hrow : (((⟨u, s, intOfNat (wl.filter (fun w => w.section_id == s)).length⟩ :
        Waitlist)).section_id == sec) = false := by simp [hse]
    constructor
    · unfold contiguousL
      rw [positionsOf_append_miss _ _ _ hrow]
      exact hcont
    · rw [usersOf_append_miss _ _ _ hrow]
      exact hnd

/-- Mapping a function that fixes every member is the identity. -/
theorem map_id_of_eq {α : Type} (f : α → α) (l : List α) (h : ∀ x ∈ l, f x = x) :
    l.map f = l := by
  induction l with
  | nil => rfl
  | cons x xs ih =>
    rw [List.map_cons, h x (List.mem_cons_self x xs),
      ih (fun a ha => h a (List.mem_cons_of_mem x ha))]

/-- The renumbering map leaves user ids unchanged. -/
theorem decrementPast_user (s p : Int) (x : Waitlist) :
    (decrementPast s p x).user_id = x.user_id := by
  unfold decrementPast
  split <;> rfl

/-- The renumbering map leaves section ids unchanged. -/
theorem decrementPast_section (s p : Int) (x : Waitlist) :
    (decrementPast s p x).section_id = x.section_id := by
  unfold decrementPast
  split <;> rfl

/-- Removing a user's (unique) waitlist entry and renumbering every later
position of the same section preserves the invariant. -/
theorem WLInv_remove (wl : List Waitlist) (hinv : WLInv wl) (u s : Int)
    (w0 : Waitlist) (rest : List Waitlist)
    (hfil : wl.filter (fun x => x.user_id == u && x.section_id == s) = w0 :: rest) :
    WLInv ((wl.filter (fun x => !(x.user_id == u && x.section_id == s))).map
      (decrementPast s w0.position)) := by
  have hw0mem : w0 ∈ wl.filter (fun x => x.user_id == u && x.section_id == s) := by
    rw [hfil]
    exact List.mem_cons_self _ _
  have hw0wl : w0 ∈ wl := (List.mem_filter.mp hw0mem).1
  have hw0p := (List.mem_filter.mp hw0mem).2
  simp only [Bool.and_eq_true, beq_iff_eq] at hw0p
  intro sec
  rcases hinv sec with ⟨hcont, hnd⟩
  have hcomm : ((wl.filter (fun x => !(x.user_id == u && x.section_id == s))).map
        (decrementPast s w0.position)).filter (fun w => w.section_id == sec) =
      ((wl.filter (fun x => !(x.user_id == u && x.section_id == s))).filter
        (fun w => w.section_id == sec)).map (decrementPast s w0.position) := by
    refine filter_map_comm _ _ (fun a => ?_) _
    rw [decrementPast_section]
  by_cases hse : s = sec
  · subst hse
    have hw0sw : w0 ∈ wl.filter (fun w => w.section_id == s) :=
      List.mem_filter.mpr ⟨hw0wl, by simp [hw0p.2]⟩
    have hnd2 : ((wl.filter (fun w => w.section_id == s)).map
        (fun w => w.user_id)).Nodup := hnd
    have hrows : (wl.filter (fun x => !(x.user_id == u && x.section_id == s))).filter
          (fun w => w.section_id == s) =
        (wl.filter (fun w => w.section_id == s)).erase w0 := by
      rw [← filter_ne_eq_erase (fun w => w.user_id) w0
        (wl.filter (fun w => w.section_id == s)) hnd2 hw0sw]
      rw [List.filter_filter, List.filter_filter]
      refine List.filter_congr ?_
      intro a _
      by_cases ha : (a.section_id == s) = true
      · simp [ha, hw0p.1]
      · have ha2 : (a.section_id == s) = false := by
          cases hb : (a.section_id == s)
          · rfl
          · exact absurd hb ha
        simp [ha2]
    have hRnodup : ((List.range (positionsOf wl s).length).map intOfNat).Nodup :=
      List.Nodup.map intOfNat_injective (List.nodup_range _)
    have hPnodup : ((wl.filter (fun w => w.section_id == s)).map
        (fun w => w.position)).Nodup := hcont.symm.nodup hRnodup
    have hpP : w0.position ∈ (wl.filter (fun w => w.section_id == s)).map
        (fun w => w.position) := List.mem_map_of_mem _ hw0sw
    constructor
    · unfold contiguousL positionsOf
      rw [hcomm, hrows, List.map_map]
      have hptw : ∀ x ∈ (wl.filter (fun w => w.section_id == s)).erase w0,
          ((fun w => w.position) ∘ decrementPast s w0.position) x =
          (fun x => if w0.position < x.position then x.position - 1 else x.position) x := by
        intro x hx
        have hxs : (x.section_id == s) = true :=
          (List.mem_filter.mp (List.mem_of_mem_erase hx)).2
        simp only [Function.comp]
        unfold decrementPast
        by_cases hlt : w0.position < x.position
        · rw [if_pos (by simp [hxs, hlt]), if_pos hlt]
        · rw [if_neg (by simp [hxs, hlt]), if_neg hlt]
      rw [List.map_congr_left hptw]
      have hsplit2 : (((wl.filter (fun w => w.section_id == s)).erase w0).map
          (fun x => if w0.position < x.position then x.position - 1 else x.position)) =
          ((((wl.filter (fun w => w.section_id == s)).erase w0).map
            (fun w => w.position)).map
              (fun y => if w0.position < y then y - 1 else y)) := by
        rw [List.map_map]
        rfl
      rw [hsplit2]
      rw [map_erase_of_nodup (fun w => w.position) w0 _ hPnodup hw0sw]
      have hlen3 : (((((wl.filter (fun w => w.section_id == s)).map
          (fun w => w.position)).erase w0.position)).map
            (fun y => if w0.position < y then y - 1 else y)).length =
          (positionsOf wl s).length - 1 := by
        rw [List.length_map, List.length_erase_of_mem hpP]
        rfl
      rw [hlen3]
      exact perm_erase_decrement _ _ _ hcont hpP
    · show ((((wl.filter (fun x => !(x.user_id == u && x.section_id == s))).map
        (decrementPast s w0.position)).filter (fun w => w.section_id == s)).map
          (fun w => w.user_id)).Nodup
      rw [hcomm, hrows, List.map_map]
      have huser : ∀ x ∈ (wl.filter (fun w => w.section_id == s)).erase w0,
          ((fun w => w.user_id) ∘ decrementPast s w0.position) x =
          (fun w => w.user_id) x := by
        intro x _
        simp only [Function.comp]
        rw [decrementPast_user]
      rw [List.map_congr_left huser]
      exact List.Nodup.sublist ((List.erase_sublist w0 _).map _) hnd
  · have hkeepeq : (wl.filter (fun x => !(x.user_id == u && x.section_id == s))).filter
        (fun w => w.section_id == sec) = wl.filter (fun w => w.section_id == sec) := by
      rw [List.filter_filter]
      refine List.filter_congr ?_
      intro a _
      by_cases ha : (a.section_id == sec) = true
      · have h1 : a.section_id = sec := by simpa using ha
        have has : (a.section_id == s) = false := by
          rw [h1]
          exact beq_eq_false_iff_ne.mpr (fun hEq => hse hEq.symm)
        simp [ha, has]
      · have ha2 : (a.section_id == sec) = false := by
          cases hb : (a.section_id == sec)
          · rfl
          · exact absurd hb ha
        simp [ha2]
    have hphi : ∀ x ∈ wl.filter (fun w => w.section_id == sec),
        decrementPast s w0.position x = x := by
      intro x hx
      have hxs : (x.section_id == sec) = true := (List.mem_filter.mp hx).2
      have hxs2 : (x.section_id == s) = false := by
        have h1 : x.section_id = sec := by simpa using hxs
        rw [h1]
        exact beq_eq_false_iff_ne.mpr (fun hEq => hse hEq.symm)
      unfold decrementPast
      rw [if_neg]
      simp [hxs2]
    constructor
    · show contiguousL ((wl.filter (fun x => !(x.user_id == u && x.section_id == s))).map
        (decrementPast s w0.position)) sec
      unfold contiguousL positionsOf
      rw [hcomm, hkeepeq, map_id_of_eq _ _ hphi]
      exact hcont
    · show ((((wl.filter (fun x => !(x.user_id == u && x.section_id == s))).map
        (decrementPast s w0.position)).filter (fun w => w.section_id == sec)).map
          (fun w => w.user_id)).Nodup
      rw [hcomm, hkeepeq, map_id_of_eq _ _ hphi]
      exact hnd

/-- A join request either leaves the waitlist table unchanged or appends one
entry at position equal to the section's current waitlist count. -/
theorem create_enrollment_waitlist_cases (user sec jwtu : Int) (roles : List Role)
    (db : DB) :
    (create_enrollment user sec jwtu roles db).1.waitlist = db.waitlist ∨
    (create_enrollment user sec jwtu roles db).1.waitlist =
      db.waitlist ++ [⟨user, sec, countWaitlistBySection db sec⟩] := by
  unfold create_enrollment
  by_cases ha : (!(roles.contains Role.Registrar) && jwtu != user) = true
  · rw [if_pos ha]
    exact Or.inl rfl
  · rw [if_neg ha]
    split
    · left
      simp only [enrollmentResponse_fst]
    · split
      · right
        simp only [enrollmentResponse_fst]
      · exact Or.inl rfl

/-- `drop_user_waitlist` with resolved JWT values is the authorization gate
followed by the body. -/
theorem drop_user_waitlist_resolved_eq (u s ju : Int) (r : List Role) (db : DB) :
    drop_user_waitlist u s (.resolved ju) (.resolved r) db =
      if (!(r.contains Role.Registrar) && (ju != u)) = true then
        (db, Except.error (Err.httpError 403 "Not authorized"))
      else dropWaitlistBody u s db := rfl

/-- A join whose user is not already on the target section's waitlist
preserves the waitlist invariant. -/
theorem WLInv_step_join (db : DB) (hinv : WLInv db.waitlist)
    (u s ju : Int) (r : List Role)
    (hok : ∀ w ∈ db.waitlist, ¬(w.user_id = u ∧ w.section_id = s)) :
    WLInv (create_enrollment u s ju r db).1.waitlist := by
  rcases create_enrollment_waitlist_cases u s ju r db with h | h
  · rw [h]
    exact hinv
  · rw [h]
    exact WLInv_append db.waitlist hinv u s hok

/-- A DropWaitlist request preserves the waitlist invariant. -/
theorem WLInv_step_drop (db : DB) (hinv : WLInv db.waitlist)
    (u s ju : Int) (r : List Role) :
    WLInv (drop_user_waitlist u s (.resolved ju) (.resolved r) db).1.waitlist := by
  rw [drop_user_waitlist_resolved_eq]
  by_cases ha : (!(r.contains Role.Registrar) && (ju != u)) = true
  · rw [if_pos ha]
    exact hinv
  · rw [if_neg ha]
    cases hbc : db.waitlist.filter (fun x => x.user_id == u && x.section_id == s)
        with
    | nil =>
      unfold dropWaitlistBody
      rw [hbc]
      exact hinv
    | cons w0 rest =>
      unfold dropWaitlistBody
      rw [hbc]
      exact WLInv_remove db.waitlist hinv u s w0 rest hbc

/-- A join or waitlist-drop request, as issued against the running service. -/
inductive Op
  | joinOp (user sec jwt_user : Int) (jwt_roles : List Role)
  | dropWLOp (user sec jwt_user : Int) (jwt_roles : List Role)

/-- The state reached after handling one request (the response is discarded;
the JWT values of a genuine HTTP request are resolved). -/
def applyOp (db : DB) : Op → DB
  | .joinOp u s ju r => (create_enrollment u s ju r db).1
  | .dropWLOp u s ju r => (drop_user_waitlist u s (.resolved ju) (.resolved r) db).1

/-- A join is duplicate-free when its user is not already on the target
section's waitlist — exactly the restriction the counterexample forces. -/
def okOp (db : DB) : Op → Prop
  | .joinOp u s _ _ => ∀ w ∈ db.waitlist, ¬(w.user_id = u ∧ w.section_id = s)
  | .dropWLOp _ _ _ _ => True

/-- States reachable from an empty waitlist through join and waitlist-drop
requests whose joins are duplicate-free. -/
inductive ReachableW : DB → Prop
  | init (db : DB) (h : db.waitlist = []) : ReachableW db
  | step (db : DB) (op : Op) (h : ReachableW db) (hok : okOp db op) :
      ReachableW (applyOp db op)

/-- C3 (amended): starting from an empty waitlist, after any sequence of
waitlist appends (the waitlist branch of the join request) for users not
already on that section's waitlist, and waitlist removals (DropWaitlist), the
set of positions of every section's waitlist entries is exactly
{0, 1, …, k-1} where k is the number of entries. -/
theorem C3_waitlist_contiguity (db : DB) (h : ReachableW db) (sec : Int) :
    contiguous db sec := by
  have hinv : WLInv db.waitlist := by
    induction h with
    | init db0 h0 =>
      rw [h0]
      exact WLInv_nil
    | step db0 op h0 hok ih =>
      cases op with
      | joinOp u s ju r => exact WLInv_step_join db0 ih u s ju r hok
      | dropWLOp u s ju r => exact WLInv_step_drop db0 ih u s ju r
  exact (hinv sec).1

/-- The C3 counterexample start state: section 1 with capacity 0 (every join
goes to the waitlist) and waitlist capacity 3. -/
def c3db0 : DB := ⟨[⟨1, 0, 3, false, false, 9⟩], [], []⟩

/-- The state after user 1 joins twice, user 2 joins, then user 1 drops. -/
def c3dbFinal : DB :=
  applyOp (applyOp (applyOp (applyOp c3db0
    (.joinOp 1 1 1 [])) (.joinOp 1 1 1 [])) (.joinOp 2 1 2 [])) (.dropWLOp 1 1 1 [])

/-- C3 counterexample: starting from an empty waitlist, three joins all take
the waitlist branch (user 1 twice, then user 2, at positions 0, 1, 2); user
1's DropWaitlist then deletes BOTH of user 1's entries while decrementing
only the positions greater than the first one, leaving user 2 alone at
position 1 — the position set is {1}, not {0}, so the claim fails for
unrestricted sequences of the two operations. -/
theorem C3_counterexample :
    c3db0.waitlist = [] ∧
    (applyOp (applyOp (applyOp c3db0 (.joinOp 1 1 1 [])) (.joinOp 1 1 1 []))
        (.joinOp 2 1 2 [])).waitlist =
      [⟨1, 1, 0⟩, ⟨1, 1, 1⟩, ⟨2, 1, 2⟩] ∧
    c3dbFinal.waitlist = [⟨2, 1, 1⟩] ∧
    ¬ contiguous c3dbFinal 1 := by decide

/-- Witness start state for C3 (amended). -/
def c3wdb0 : DB := ⟨[⟨1, 0, 3, false, false, 9⟩], [], []⟩

theorem C3_waitlist_contiguity_witness :
    contiguous (applyOp (applyOp c3wdb0 (.joinOp 1 1 1 [])) (.joinOp 2 1 2 [])) 1 :=
  C3_waitlist_contiguity _
    (ReachableW.step _ (.joinOp 2 1 2 [])
      (ReachableW.step _ (.joinOp 1 1 1 []) (ReachableW.init c3wdb0 rfl)
        (by simp only [okOp]; decide))
      (by simp only [okOp]; decide))
    1

end CoursesApi
